import Mathlib

/-!
Verification of the agent-run monitoring and PR-detection core of the
`codege` backend (`src/backend/api_routes.py`, `src/backend/codegen_client.py`).

Strings from the Python source are modelled as `List Char`. `str.lower` is
modelled per-character with `Char.toLower` (ASCII case folding; all string
constants in the source are ASCII), `str.strip()` falsiness as "all characters
are whitespace" with Python's six ASCII whitespace characters, and the regex
`https://github\.com/[^/]+/[^/]+/pull/\d+` by a deterministic matcher
(`[^/]+` directly before `/` admits no useful backtracking, so greedy
maximal-munch is exact); `\d` is modelled as the ASCII digits. Wall-clock
values (`createdAt` timestamps) and the real-time 10-second sleep are modelled
as data only (the recorded sleep length), not as time.
-/

namespace Codege

/-- Per-character model of Python `str.lower` (ASCII case folding). -/
def pyLower (l : List Char) : List Char := l.map Char.toLower

/-- Python's `x in s` substring test: does `needle` occur contiguously in
`haystack`? -/
def hasSubstr (needle : List Char) : List Char → Bool
  | [] => needle.isEmpty
  | c :: rest => needle.isPrefixOf (c :: rest) || hasSubstr needle rest

/-- Python's `str.strip()` falsiness: every character is (ASCII) whitespace.
`str.strip()` with no argument strips `' '`, `'\t'`, `'\n'`, `'\r'`,
`'\x0b'`, `'\x0c'` (and Unicode spaces, not modelled). -/
def pyIsSpace (c : Char) : Bool :=
  c = ' ' || c = '\t' || c = '\n' || c = '\r' || c = '\x0b' || c = '\x0c'

/-- `not log_entry.strip()`: the line is blank (empty or whitespace-only). -/
def isBlankLine (l : List Char) : Bool := l.all pyIsSpace

/-- Python truthiness of an `Optional[str]`: `None` and `""` are falsy. -/
def pyTruthy : Option (List Char) → Bool
  | none => false
  | some s => !s.isEmpty

/-- `"\n".join(parts)`. -/
def joinNewline : List (List Char) → List Char
  | [] => []
  | [l] => l
  | l :: rest => l ++ '\n' :: joinNewline rest

/-! ### `extract_pr_url_from_logs` (api_routes.py lines 190-199) -/

/-- The literal prefix `https://github.com/` of the PR-URL regex. -/
def ghLit : List Char := "https://github.com/".data

/-- Attempt to match the regex `https://github\.com/[^/]+/[^/]+/pull/\d+`
anchored at the start of `cs`, returning the matched text (`group(0)`).
Each `[^/]+` is greedy and is followed by a literal `/`; a shorter match
would put a non-`/` character where `/` is required, so maximal-munch is
the unique candidate and the matcher is deterministic.  Likewise `\d+` is
final, so it is the maximal digit run. -/
def matchPrAt (cs : List Char) : Option (List Char) :=
  if ghLit.isPrefixOf cs then
    let r0 := cs.drop ghLit.length
    let seg1 := r0.takeWhile (fun c => c ≠ '/')
    let r1 := r0.dropWhile (fun c => c ≠ '/')
    if seg1.isEmpty then none
    else
      match r1 with
      | '/' :: r2 =>
        let seg2 := r2.takeWhile (fun c => c ≠ '/')
        let r3 := r2.dropWhile (fun c => c ≠ '/')
        if seg2.isEmpty then none
        else if "/pull/".data.isPrefixOf r3 then
          let r4 := r3.drop 6
          let ds := r4.takeWhile Char.isDigit
          if ds.isEmpty then none
          else some (ghLit ++ seg1 ++ '/' :: seg2 ++ "/pull/".data ++ ds)
        else none
      | _ => none
  else none

/-- Python `re.search` for the PR-URL pattern: try each start position left
to right, return the first successful match. -/
def searchPrUrl : List Char → Option (List Char)
  | [] => none
  | c :: rest =>
    match matchPrAt (c :: rest) with
    | some m => some m
    | none => searchPrUrl rest

/-- `extract_pr_url_from_logs(logs)`: scan lines in order; on a line whose
lowercasing contains `"pull request"` and which contains
`"https://github.com"`, run the regex search and return its match if any;
otherwise keep scanning; return `none` if no line yields a match. -/
def extract_pr_url_from_logs : List (List Char) → Option (List Char)
  | [] => none
  | l :: rest =>
    if hasSubstr "pull request".data (pyLower l) && hasSubstr "https://github.com".data l then
      match searchPrUrl l with
      | some m => some m
      | none => extract_pr_url_from_logs rest
    else extract_pr_url_from_logs rest

/-! ### `extract_plan_from_logs` (api_routes.py lines 537-574) -/

/-- The case-insensitive section marker `"implementation plan"`. -/
def planMarker : List Char := "implementation plan".data

/-- Does the line contain the marker, case-insensitively? -/
def hasPlanMarker (l : List Char) : Bool := hasSubstr planMarker (pyLower l)

/-- The loop of `extract_plan_from_logs`: for each line, if it contains the
marker (case-insensitively) set the in-section flag (the line itself is not
accumulated); else if in-section and non-blank, append the line; else if
in-section and blank, `break`; else skip. Returns the accumulated lines. -/
def planLoop : List (List Char) → Bool → List (List Char) → List (List Char)
  | [], _, acc => acc
  | l :: rest, inPlan, acc =>
    if hasPlanMarker l then planLoop rest true acc
    else if inPlan && !isBlankLine l then planLoop rest inPlan (acc ++ [l])
    else if inPlan && isBlankLine l then acc
    else planLoop rest inPlan acc

/-- The fixed default plan template returned when no plan content was
accumulated (api_routes.py lines 554-574), verbatim. -/
def defaultPlanTemplate : List Char :=
  ("# Implementation Plan\n\n## Phase 1: Analysis and Setup\n- Analyze current codebase structure\n- Identify required dependencies\n- Set up development environment\n\n## Phase 2: Core Implementation\n- Implement main functionality\n- Add error handling\n- Write unit tests\n\n## Phase 3: Integration and Testing\n- Integrate with existing systems\n- Perform integration testing\n- Optimize performance\n\n## Phase 4: Documentation and Deployment\n- Update documentation\n- Prepare deployment scripts\n- Deploy to staging environment").data

/-- `extract_plan_from_logs(logs)`: run the accumulation loop; if any lines
were accumulated return them newline-joined, else the default template. -/
def extract_plan_from_logs (logs : List (List Char)) : List Char :=
  let planContent := planLoop logs false []
  if planContent.isEmpty then defaultPlanTemplate else joinNewline planContent

/-! ### `monitor_agent_run_for_pr` (api_routes.py lines 130-188)

The monitor polls `client.get_agent_run` once per loop iteration, and, when
the status is `"completed"`, also `client.get_agent_run_logs`.  Either call
may raise (a transport error); a raise is caught by the loop's `except`
branch, which sleeps and increments the attempt counter.  We model the
environment of one iteration as a `Poll`: the outcome of the status fetch
(`Except Unit` for raise vs. return, carrying `agent_run.get("status")`,
which is `none` when the field is absent) and the outcome of the log fetch
(carrying `logs.get("logs", [])`'s source value: `none` when the `"logs"`
field is absent).  A run's environment is a function from the attempt
counter to the `Poll` for that iteration. -/

/-- The environment of one poll-loop iteration. -/
structure Poll where
  runFetch : Except Unit (Option String)
  logsFetch : Except Unit (Option (List (List Char)))

/-- A broadcast PR event: the `event_data` dict passed to
`broadcast_pr_event`.  The `createdAt` wall-clock timestamp is not
modelled. -/
structure PrEvent where
  status : String
  prUrl : Option (List Char)
  errMsg : Option String
deriving DecidableEq

/-- The timeout event emitted when the attempt ceiling is reached
(api_routes.py lines 182-188). -/
def timeoutEvent : PrEvent :=
  ⟨"failed", none, some "Monitoring timeout - PR status unknown"⟩

/-- Outcome of one loop iteration: either a PrEvent is broadcast and the
loop `break`s, or the loop sleeps the given number of seconds and the
attempt counter is incremented. -/
inductive StepOut where
  | emit (e : PrEvent)
  | cont (sleepSecs : Nat)
deriving DecidableEq

/-- The body of one `while` iteration of `monitor_agent_run_for_pr`,
lines 137-180: fetch the status (a raise is caught: sleep 10, continue);
on `"completed"` fetch the logs (a raise is likewise caught), extract a PR
URL and emit `created` (if a truthy URL was found) or the
completed-without-PR failure; on `"failed"` emit the failure event;
otherwise sleep 10 seconds and continue. -/
def stepOf (p : Poll) : StepOut :=
  match p.runFetch with
  | .error _ => .cont 10
  | .ok st =>
    if st = some "completed" then
      match p.logsFetch with
      | .error _ => .cont 10
      | .ok logsVal =>
        let prUrl := extract_pr_url_from_logs (logsVal.getD [])
        if pyTruthy prUrl then .emit ⟨"created", prUrl, none⟩
        else .emit ⟨"failed", none, some "Implementation completed but no PR was created"⟩
    else if st = some "failed" then .emit ⟨"failed", none, some "Implementation failed"⟩
    else .cont 10

/-- `max_attempts = 60` (api_routes.py line 133). -/
def max_attempts : Nat := 60

/-- The `while attempt < max_attempts` loop, with `fuel = max_attempts -
attempt`: returns the events broadcast inside the loop and the final value
of `attempt`. -/
def monitorLoop (polls : Nat → Poll) : Nat → Nat → List PrEvent × Nat
  | 0, attempt => ([], attempt)
  | fuel + 1, attempt =>
    match stepOf (polls attempt) with
    | .emit e => ([e], attempt)
    | .cont _ => monitorLoop polls fuel (attempt + 1)

/-- `monitor_agent_run_for_pr`: run the loop from `attempt = 0`, then, if
`attempt >= max_attempts`, additionally broadcast the timeout event.
Returns the list of all events broadcast, in order. -/
def monitor_agent_run_for_pr (polls : Nat → Poll) : List PrEvent :=
  let r := monitorLoop polls max_attempts 0
  if max_attempts ≤ r.2 then r.1 ++ [timeoutEvent] else r.1

/-! ### `CodegenClient.get_agent_run` status handling and the spec's
`RunStatus` (codegen_client.py lines 155-165)

`get_agent_run` returns the service's JSON response unchanged: it never
inspects the status string, so no status value makes it fail.  The spec's
`RunStatus` enumeration does not exist in the code; the monitor compares
the raw string only against `"completed"` and `"failed"`. -/

/-- The spec's status enumeration. -/
inductive RunStatus where
  | pending | running | completed | failed | unknown
deriving DecidableEq

/-- Modelled from the spec: the `RunStatus` classification of a raw status
string ("Unknown covers unrecognized/absent status strings").  The source
has no such enum; this definition names the spec's reading of the raw
`agent_run.get("status")` value the client passes through untouched. -/
def classifyStatus : Option String → RunStatus
  | none => .unknown
  | some s =>
    if s = "pending" then .pending
    else if s = "running" then .running
    else if s = "completed" then .completed
    else if s = "failed" then .failed
    else .unknown

/-! ### `ConnectionManager.broadcast_pr_event` (api_routes.py lines 53-73)

Connections are modelled by their Python identity `id(conn) : Nat`;
`pr_subscriptions` is an insertion-ordered association list from
connection id to subscription (the dict's string keys are `str(id(ws))`
and the lookup converts back with `int(...)`, an identity round trip).
The per-observer `websocket.send_text` may raise; the code catches and
logs the failure.  We model the sends attempted by one broadcast as a list
of (connection id, send outcome) pairs, where the outcome of each send is
given by an oracle `sendOk`. -/

/-- One entry of `pr_subscriptions`: the dict stored on
`subscribe_pr_events` (api_routes.py lines 113-117); each field is the
message's value or `none` when absent. -/
structure Subscription where
  project_id : Option String
  requirement_id : Option String
  agent_run_id : Option String
deriving DecidableEq

/-- The `ConnectionManager` state relevant to broadcasting. -/
structure ConnectionManager where
  active_connections : List Nat
  pr_subscriptions : List (Nat × Subscription)

/-- `broadcast_pr_event(project_id, requirement_id, event_data)`: for every
subscription whose key matches, look the connection up among the active
connections and, if present, attempt the send (a failure is caught and
logged).  Returns the attempted sends in subscription order with each
send's outcome. -/
def broadcast_pr_event (m : ConnectionManager) (pid rid : String)
    (sendOk : Nat → Bool) : List (Nat × Bool) :=
  m.pr_subscriptions.filterMap (fun cs =>
    if cs.2.project_id = some pid ∧ cs.2.requirement_id = some rid then
      if cs.1 ∈ m.active_connections then some (cs.1, sendOk cs.1)
      else none
    else none)

/-! ### Supporting lemmas -/

/-- Characters of an occurring substring are characters of the string. -/
theorem mem_of_hasSubstr (n : List Char) :
    ∀ h : List Char, hasSubstr n h = true → ∀ c ∈ n, c ∈ h := by
  intro h
  induction h with
  | nil =>
    intro hs c hc
    simp only [hasSubstr, List.isEmpty_iff] at hs
    subst hs
    cases hc
  | cons d rest ih =>
    intro hs c hc
    simp only [hasSubstr, Bool.or_eq_true] at hs
    rcases hs with hs | hs
    · exact (List.isPrefixOf_iff_prefix.mp hs).subset hc
    · exact List.mem_cons_of_mem d (ih hs c hc)

/-- A line in which `needle` occurs occurs has `needle`'s prefix test
succeed somewhere; in particular a prefix of an occurring substring also
occurs. -/
theorem hasSubstr_of_prefix (n n' : List Char) (hp : n' <+: n) :
    ∀ h : List Char, hasSubstr n h = true → hasSubstr n' h = true := by
  intro h
  induction h with
  | nil =>
    intro hs
    simp only [hasSubstr, List.isEmpty_iff] at hs ⊢
    subst hs
    exact List.prefix_nil.mp hp
  | cons d rest ih =>
    intro hs
    simp only [hasSubstr, Bool.or_eq_true] at hs ⊢
    rcases hs with hs | hs
    · exact Or.inl (List.isPrefixOf_iff_prefix.mpr (hp.trans (List.isPrefixOf_iff_prefix.mp hs)))
    · exact Or.inr (ih hs)

/-- A successful regex match starts with the literal `https://github.com/`. -/
theorem matchPrAt_isPrefixOf (cs m : List Char) (h : matchPrAt cs = some m) :
    ghLit.isPrefixOf cs = true := by
  by_cases hp : ghLit.isPrefixOf cs
  · exact hp
  · simp only [matchPrAt, hp, Bool.false_eq_true, if_false] at h
    exact Option.noConfusion h

/-- A line on which the regex search succeeds contains the literal
`https://github.com`. -/
theorem hasSubstr_gh_of_search :
    ∀ l m : List Char, searchPrUrl l = some m →
    hasSubstr "https://github.com".data l = true := by
  intro l
  induction l with
  | nil => intro m h; simp [searchPrUrl] at h
  | cons c rest ih =>
    intro m h
    simp only [hasSubstr, Bool.or_eq_true]
    simp only [searchPrUrl] at h
    cases hm : matchPrAt (c :: rest) with
    | some m' =>
      refine Or.inl (List.isPrefixOf_iff_prefix.mpr ?_)
      have hgh : "https://github.com".data <+: ghLit := by decide
      exact hgh.trans (List.isPrefixOf_iff_prefix.mp (matchPrAt_isPrefixOf _ _ hm))
    | none =>
      rw [hm] at h
      exact Or.inr (ih m h)

/-- The line filter of `extract_pr_url_from_logs` as seen by the spec: the
line contains a case-insensitive `"pull request"` and a substring matching
the PR-URL pattern. -/
def prUrlLine (l : List Char) : Bool :=
  hasSubstr "pull request".data (pyLower l) && (searchPrUrl l).isSome

/-- Scanning skips a line that does not satisfy the spec's line filter. -/
theorem extract_pr_url_skip (l : List Char) (rest : List (List Char))
    (h : prUrlLine l = false) :
    extract_pr_url_from_logs (l :: rest) = extract_pr_url_from_logs rest := by
  simp only [prUrlLine, Bool.and_eq_false_iff] at h
  rcases h with h | h
  · simp only [extract_pr_url_from_logs, h, Bool.false_and, Bool.false_eq_true, if_false]
  · have h0 : searchPrUrl l = none := by
      cases ho : searchPrUrl l with
      | none => rfl
      | some m => rw [ho] at h; simp at h
    simp only [extract_pr_url_from_logs, h0]
    cases hc : hasSubstr "pull request".data (pyLower l) && hasSubstr "https://github.com".data l <;> simp

/-- Scanning returns the regex search result on a line satisfying the
spec's line filter. -/
theorem extract_pr_url_hit (l : List Char) (rest : List (List Char))
    (h : prUrlLine l = true) :
    extract_pr_url_from_logs (l :: rest) = searchPrUrl l := by
  simp only [prUrlLine, Bool.and_eq_true] at h
  obtain ⟨h1, h2⟩ := h
  obtain ⟨m, hm⟩ := Option.isSome_iff_exists.mp h2
  have hgh := hasSubstr_gh_of_search l m hm
  simp only [extract_pr_url_from_logs, h1, hgh, Bool.and_self, if_true, hm]

/-- Lowercasing preserves (Python ASCII) whitespace. -/
theorem pyIsSpace_toLower (c : Char) (h : pyIsSpace c = true) :
    Char.toLower c = c := by
  simp only [pyIsSpace, Bool.or_eq_true, decide_eq_true_eq] at h
  rcases h with ((((h | h) | h) | h) | h) | h <;> subst h <;> decide

/-- A blank line cannot contain the plan marker. -/
theorem hasPlanMarker_of_blank (l : List Char) (hb : isBlankLine l = true) :
    hasPlanMarker l = false := by
  by_contra h
  rw [Bool.not_eq_false] at h
  have hi : 'i' ∈ pyLower l :=
    mem_of_hasSubstr planMarker (pyLower l) h 'i' (by decide)
  rw [pyLower, List.mem_map] at hi
  obtain ⟨d, hd, hdi⟩ := hi
  rw [isBlankLine, List.all_eq_true] at hb
  have hsp := hb d hd
  rw [pyIsSpace_toLower d hsp] at hdi
  subst hdi
  exact absurd hsp (by decide)

/-- Before the section starts, lines without the marker are skipped. -/
theorem planLoop_skip (logs : List (List Char)) (acc : List (List Char)) :
    ∀ pre, (∀ l ∈ pre, hasPlanMarker l = false) →
    planLoop (pre ++ logs) false acc = planLoop logs false acc := by
  intro pre
  induction pre with
  | nil => intro _; rfl
  | cons p pre' ih =>
    intro hpre
    have hp := hpre p (List.mem_cons_self p pre')
    rw [List.cons_append]
    simp only [planLoop, hp, Bool.false_and, Bool.false_eq_true, if_false]
    exact ih (fun l hl => hpre l (List.mem_cons_of_mem p hl))

/-- A marker line sets the in-section flag without being accumulated. -/
theorem planLoop_marker (logs : List (List Char)) (m : List Char)
    (b : Bool) (acc : List (List Char)) (hm : hasPlanMarker m = true) :
    planLoop (m :: logs) b acc = planLoop logs true acc := by
  simp only [planLoop, hm, if_true]

/-- Inside the section, non-blank marker-free lines are accumulated in
order. -/
theorem planLoop_accum (logs : List (List Char)) :
    ∀ mid acc, (∀ l ∈ mid, isBlankLine l = false ∧ hasPlanMarker l = false) →
    planLoop (mid ++ logs) true acc = planLoop logs true (acc ++ mid) := by
  intro mid
  induction mid with
  | nil => intro acc _; rw [List.append_nil]; rfl
  | cons x mid' ih =>
    intro acc hmid
    obtain ⟨hxb, hxm⟩ := hmid x (List.mem_cons_self x mid')
    rw [List.cons_append]
    simp only [planLoop, hxm, Bool.false_eq_true, if_false, hxb, Bool.not_false,
      Bool.and_true, Bool.true_and, if_true]
    rw [ih (acc ++ [x]) (fun l hl => hmid l (List.mem_cons_of_mem x hl)),
      List.append_assoc]
    rfl

/-- Inside the section, a blank line terminates the loop with the
accumulated lines. -/
theorem planLoop_break (logs : List (List Char)) (bl : List Char)
    (acc : List (List Char)) (hb : isBlankLine bl = true) :
    planLoop (bl :: logs) true acc = acc := by
  simp only [planLoop, hasPlanMarker_of_blank bl hb, Bool.false_eq_true, if_false,
    hb, Bool.not_true, Bool.and_false, Bool.false_eq_true, if_false, Bool.true_and, if_true]

/-- Inside the section with no blank line to the end of input, exactly the
marker-free lines are accumulated. -/
theorem planLoop_to_end :
    ∀ post acc, (∀ l ∈ post, isBlankLine l = false) →
    planLoop post true acc = acc ++ post.filter (fun l => !hasPlanMarker l) := by
  intro post
  induction post with
  | nil => intro acc _; rw [List.filter_nil, List.append_nil]; rfl
  | cons x post' ih =>
    intro acc hpost
    have hxb := hpost x (List.mem_cons_self x post')
    cases hxm : hasPlanMarker x with
    | true =>
      rw [planLoop_marker post' x true acc hxm,
        ih acc (fun l hl => hpost l (List.mem_cons_of_mem x hl))]
      simp [List.filter_cons, hxm]
    | false =>
      simp only [planLoop, hxm, Bool.false_eq_true, if_false, hxb, Bool.not_false,
        Bool.true_and, if_true]
      rw [ih (acc ++ [x]) (fun l hl => hpost l (List.mem_cons_of_mem x hl))]
      simp [List.filter_cons, hxm]

/-! ### Claim theorems: the log extractors -/

/-- Claim C3: `extract_pr_url_from_logs` scans lines in order; if some line
contains a case-insensitive `"pull request"` together with a substring
matching `https://github.com/<owner>/<repo>/pull/<digits>`, the result for
the log sequence up to and including the first such line is exactly the
regex search's matched URL substring of that line (and it is a match, not
`none`); if no line qualifies, the result is `none`. -/
theorem extract_pr_url_first_match (logs : List (List Char)) :
    (∀ pre line rest, logs = pre ++ line :: rest →
       (∀ l ∈ pre, prUrlLine l = false) → prUrlLine line = true →
       extract_pr_url_from_logs logs = searchPrUrl line ∧ (searchPrUrl line).isSome = true) ∧
    ((∀ l ∈ logs, prUrlLine l = false) → extract_pr_url_from_logs logs = none) := by
  constructor
  · intro pre
    induction pre generalizing logs with
    | nil =>
      intro line rest hsplit _ hline
      subst hsplit
      refine ⟨extract_pr_url_hit line rest hline, ?_⟩
      simp only [prUrlLine, Bool.and_eq_true] at hline
      exact hline.2
    | cons p pre' ih =>
      intro line rest hsplit hpre hline
      subst hsplit
      have hskip := extract_pr_url_skip p (pre' ++ line :: rest)
        (hpre p (List.mem_cons_self p pre'))
      rw [List.cons_append, hskip]
      exact ih (pre' ++ line :: rest) line rest rfl
        (fun l hl => hpre l (List.mem_cons_of_mem p hl)) hline
  · intro hall
    induction logs with
    | nil => rfl
    | cons l rest ih =>
      rw [extract_pr_url_skip l rest (hall l (List.mem_cons_self l rest))]
      exact ih (fun x hx => hall x (List.mem_cons_of_mem l hx))

/-- Witness for C3: a two-line log whose second line carries the PR URL. -/
theorem extract_pr_url_first_match_witness :
    extract_pr_url_from_logs
        ["checking the build".data,
         "Created pull request: https://github.com/octo/demo/pull/42 (ready)".data] =
      searchPrUrl "Created pull request: https://github.com/octo/demo/pull/42 (ready)".data ∧
    (searchPrUrl "Created pull request: https://github.com/octo/demo/pull/42 (ready)".data).isSome = true :=
  (extract_pr_url_first_match _).1 ["checking the build".data] _ [] rfl
    (by decide) (by decide)

/-- A run whose poll at each attempt continues: the loop exhausts its budget
and the final attempt counter is the start plus the budget. -/
theorem monitorLoop_all_cont (polls : Nat → Poll) :
    ∀ fuel att, (∀ i, att ≤ i → i < att + fuel → ∃ s, stepOf (polls i) = StepOut.cont s) →
    monitorLoop polls fuel att = ([], att + fuel) := by
  intro fuel
  induction fuel with
  | zero => intro att _; rfl
  | succ n ih =>
    intro att h
    obtain ⟨s, hs⟩ := h att (Nat.le_refl att) (by omega)
    have hrec := ih (att + 1) (fun i h1 h2 => h i (by omega) (by omega))
    have h3 : att + 1 + n = att + (n + 1) := by omega
    simp only [monitorLoop, hs]
    rw [hrec, h3]

/-- Either the loop breaks with exactly one event at an attempt strictly
below the budget's end, or it exhausts the budget with no event. -/
theorem monitorLoop_cases (polls : Nat → Poll) :
    ∀ fuel att,
    (∃ e a, monitorLoop polls fuel att = ([e], a) ∧ a < att + fuel) ∨
    monitorLoop polls fuel att = ([], att + fuel) := by
  intro fuel
  induction fuel with
  | zero => intro att; exact Or.inr rfl
  | succ n ih =>
    intro att
    cases hs : stepOf (polls att) with
    | emit e =>
      exact Or.inl ⟨e, att, by simp only [monitorLoop, hs], by omega⟩
    | cont s =>
      rcases ih (att + 1) with ⟨e, a, heq, hlt⟩ | heq
      · exact Or.inl ⟨e, a, by simp only [monitorLoop, hs, heq], by omega⟩
      · refine Or.inr ?_
        have h3 : att + 1 + n = att + (n + 1) := by omega
        simp only [monitorLoop, hs]
        rw [heq, h3]

/-- A non-terminal status makes the loop body sleep 10 seconds and
continue. -/
theorem stepOf_nonterminal (st : Option String)
    (lf : Except Unit (Option (List (List Char))))
    (h1 : st ≠ some "completed") (h2 : st ≠ some "failed") :
    stepOf ⟨Except.ok st, lf⟩ = StepOut.cont 10 := by
  simp only [stepOf, if_neg h1, if_neg h2]

/-- A loop body whose status fetch raises, or whose log fetch (entered on a
`"completed"` status) raises, sleeps 10 seconds and continues. -/
def errorCycle (p : Poll) : Prop :=
  p.runFetch = Except.error () ∨
    (p.runFetch = Except.ok (some "completed") ∧ p.logsFetch = Except.error ())

theorem stepOf_errorCycle (p : Poll) (h : errorCycle p) :
    stepOf p = StepOut.cont 10 := by
  obtain ⟨rf, lf⟩ := p
  rcases h with h | ⟨h1, h2⟩
  · simp only at h
    simp only [stepOf, h]
  · simp only at h1 h2
    simp [stepOf, h1, h2]

/-- Claim C4 as stated is false: a non-blank line after the marker that
itself contains the marker text is not accumulated, so the section
collapses to the default template instead of that line. -/
theorem extract_plan_section_claim_cex :
    extract_plan_from_logs
        ["implementation plan".data, "1. refine the implementation plan".data, "".data] =
      defaultPlanTemplate ∧
    defaultPlanTemplate ≠ "1. refine the implementation plan".data := by
  constructor
  · rfl
  · decide

/-- Claim C4 (amended): if the first marker line is followed by `N >= 1`
non-blank lines, none of which itself contains the case-insensitive
marker, and then a blank line, `extract_plan_from_logs` returns exactly
those `N` lines newline-joined, excluding the marker line and the blank
line. -/
theorem extract_plan_section_amended (pre mid rest : List (List Char))
    (m bl : List Char)
    (hpre : ∀ l ∈ pre, hasPlanMarker l = false)
    (hm : hasPlanMarker m = true)
    (hmid : ∀ l ∈ mid, isBlankLine l = false ∧ hasPlanMarker l = false)
    (hne : mid ≠ [])
    (hbl : isBlankLine bl = true) :
    extract_plan_from_logs (pre ++ m :: (mid ++ bl :: rest)) = joinNewline mid := by
  unfold extract_plan_from_logs
  rw [planLoop_skip (m :: (mid ++ bl :: rest)) [] pre hpre,
    planLoop_marker (mid ++ bl :: rest) m false [] hm,
    planLoop_accum (bl :: rest) mid [] hmid,
    planLoop_break rest bl ([] ++ mid) hbl,
    List.nil_append]
  rw [if_neg]
  simp only [List.isEmpty_iff]
  exact hne

/-- Witness for the amended C4: marker, two content lines, blank
terminator, trailing ignored line. -/
theorem extract_plan_section_amended_witness :
    extract_plan_from_logs
        (["prep work".data] ++
          "Now producing the Implementation Plan:".data ::
          (["- change module a".data, "- add tests".data] ++ "  ".data :: ["ignored".data])) =
      joinNewline ["- change module a".data, "- add tests".data] :=
  extract_plan_section_amended
    ["prep work".data]
    ["- change module a".data, "- add tests".data]
    ["ignored".data]
    "Now producing the Implementation Plan:".data "  ".data
    (by decide) (by decide) (by decide) (by decide) (by decide)

/-- Claim C8: with no marker line anywhere, `extract_plan_from_logs`
returns the fixed default four-phase template verbatim, as a normal
result. -/
theorem extract_plan_default_when_no_marker (logs : List (List Char))
    (h : ∀ l ∈ logs, hasPlanMarker l = false) :
    extract_plan_from_logs logs = defaultPlanTemplate := by
  unfold extract_plan_from_logs
  have h0 := planLoop_skip [] [] logs h
  rw [List.append_nil] at h0
  rw [h0]
  rfl

/-- Witness for C8 at a marker-free log. -/
theorem extract_plan_default_when_no_marker_witness :
    extract_plan_from_logs ["fetching sources".data, "done".data] = defaultPlanTemplate :=
  extract_plan_default_when_no_marker _ (by decide)

/-- Claim C9: with a marker line but zero accumulated lines after it
(the marker is the last line, or the next line is blank),
`extract_plan_from_logs` falls back to the default template rather than
returning an empty string. -/
theorem extract_plan_default_on_empty_section (pre rest : List (List Char))
    (m : List Char)
    (hpre : ∀ l ∈ pre, hasPlanMarker l = false)
    (hm : hasPlanMarker m = true)
    (hrest : rest = [] ∨ ∃ bl rest2, rest = bl :: rest2 ∧ isBlankLine bl = true) :
    extract_plan_from_logs (pre ++ m :: rest) = defaultPlanTemplate := by
  unfold extract_plan_from_logs
  rw [planLoop_skip (m :: rest) [] pre hpre, planLoop_marker rest m false [] hm]
  rcases hrest with h | ⟨bl, rest2, hsplit, hbl⟩
  · subst h; rfl
  · subst hsplit
    rw [planLoop_break rest2 bl [] hbl]
    rfl

/-- Witness for C9 with the marker as the final line. -/
theorem extract_plan_default_on_empty_section_witness :
    extract_plan_from_logs (["ok".data] ++ "implementation plan".data :: []) =
      defaultPlanTemplate :=
  extract_plan_default_on_empty_section ["ok".data] [] "implementation plan".data
    (by decide) (by decide) (Or.inl rfl)

/-- Claim C10 as stated is false in the edge case where every line after
the marker itself contains the marker text: nothing is accumulated and the
default template is returned instead of the empty join. -/
theorem extract_plan_unterminated_claim_cex :
    extract_plan_from_logs ["implementation plan".data, "implementation plan".data] =
      defaultPlanTemplate ∧
    defaultPlanTemplate ≠ [] := by
  constructor
  · rfl
  · decide

/-- Claim C10 (amended): if the first marker line is followed only by
non-blank lines with no blank line before the end of input, and at least
one of those lines does not itself contain the marker text,
`extract_plan_from_logs` accumulates through the end of the sequence and
returns all marker-free lines after the marker joined by newlines — no
blank-line terminator is required for a non-default result. -/
theorem extract_plan_unterminated_amended (pre post : List (List Char))
    (m : List Char)
    (hpre : ∀ l ∈ pre, hasPlanMarker l = false)
    (hm : hasPlanMarker m = true)
    (hpost : ∀ l ∈ post, isBlankLine l = false)
    (hne : post.filter (fun l => !hasPlanMarker l) ≠ []) :
    extract_plan_from_logs (pre ++ m :: post) =
      joinNewline (post.filter (fun l => !hasPlanMarker l)) := by
  unfold extract_plan_from_logs
  rw [planLoop_skip (m :: post) [] pre hpre, planLoop_marker post m false [] hm,
    planLoop_to_end post [] hpost, List.nil_append]
  rw [if_neg]
  simp only [List.isEmpty_iff]
  exact hne

/-- Witness for the amended C10: an unterminated section reaching the end
of the log. -/
theorem extract_plan_unterminated_amended_witness :
    extract_plan_from_logs
        (["preamble".data] ++ "IMPLEMENTATION PLAN".data ::
          ["phase one".data, "phase two".data]) =
      joinNewline (["phase one".data, "phase two".data].filter
        (fun l => !hasPlanMarker l)) :=
  extract_plan_unterminated_amended ["preamble".data]
    ["phase one".data, "phase two".data] "IMPLEMENTATION PLAN".data
    (by decide) (by decide) (by decide) (by decide)

/-! ### Claim theorems: the monitor -/

/-- Claim C1: a single invocation of `monitor_agent_run_for_pr` broadcasts
at most one PrEvent: the loop breaks on the first terminal classification,
and the timeout event is emitted only when the loop produced no
terminal-status event. -/
theorem monitor_emits_at_most_one_event (polls : Nat → Poll) :
    (monitor_agent_run_for_pr polls).length ≤ 1 := by
  unfold monitor_agent_run_for_pr
  rcases monitorLoop_cases polls max_attempts 0 with ⟨e, a, heq, hlt⟩ | heq
  · simp only [heq]
    rw [if_neg (by omega)]
    simp
  · simp only [heq]
    rw [if_pos (by omega)]
    simp

/-- Claim C2: fed 60 consecutive successfully-fetched non-terminal statuses,
the monitor broadcasts exactly the single timeout event
`{status = "failed", error = "Monitoring timeout - PR status unknown"}`,
with the attempt counter having reached the full 60-attempt ceiling. -/
theorem monitor_timeout_after_sixty_nonterminal (polls : Nat → Poll)
    (h : ∀ i, i < max_attempts → ∃ st lf, polls i = ⟨Except.ok st, lf⟩ ∧
         st ≠ some "completed" ∧ st ≠ some "failed") :
    monitor_agent_run_for_pr polls =
      [⟨"failed", none, some "Monitoring timeout - PR status unknown"⟩] ∧
    (monitorLoop polls max_attempts 0).2 = max_attempts := by
  have hloop : monitorLoop polls max_attempts 0 = ([], 0 + max_attempts) := by
    refine monitorLoop_all_cont polls max_attempts 0 (fun i _ h2 => ?_)
    obtain ⟨st, lf, hp, hc, hf⟩ := h i (by omega)
    exact ⟨10, by rw [hp]; exact stepOf_nonterminal st lf hc hf⟩
  constructor
  · unfold monitor_agent_run_for_pr
    simp only [hloop]
    rw [if_pos (by omega)]
    rfl
  · rw [hloop]
    exact Nat.zero_add _

/-- Witness for C2 at the constant `running` environment. -/
theorem monitor_timeout_after_sixty_nonterminal_witness :
    monitor_agent_run_for_pr (fun _ => ⟨Except.ok (some "running"), Except.ok none⟩) =
      [⟨"failed", none, some "Monitoring timeout - PR status unknown"⟩] ∧
    (monitorLoop (fun _ => ⟨Except.ok (some "running"), Except.ok none⟩) max_attempts 0).2 =
      max_attempts :=
  monitor_timeout_after_sixty_nonterminal _
    (fun i _ => ⟨some "running", Except.ok none, rfl, by decide, by decide⟩)

/-- Claim C6: a poll cycle in which the status fetch raises, or in which the
log fetch entered on a `"completed"` status raises, does not terminate the
loop: it sleeps the same fixed 10 seconds and increments the attempt
counter; a run whose every cycle errors for the whole 60-attempt ceiling
ends with the timeout event, not a distinct transport-failure outcome. -/
theorem monitor_survives_transport_errors (polls : Nat → Poll)
    (h : ∀ i, i < max_attempts → errorCycle (polls i)) :
    (∀ i, i < max_attempts → stepOf (polls i) = StepOut.cont 10) ∧
    monitor_agent_run_for_pr polls =
      [⟨"failed", none, some "Monitoring timeout - PR status unknown"⟩] := by
  have hstep : ∀ i, i < max_attempts → stepOf (polls i) = StepOut.cont 10 :=
    fun i hi => stepOf_errorCycle (polls i) (h i hi)
  refine ⟨hstep, ?_⟩
  have hloop : monitorLoop polls max_attempts 0 = ([], 0 + max_attempts) :=
    monitorLoop_all_cont polls max_attempts 0
      (fun i _ h2 => ⟨10, hstep i (by omega)⟩)
  unfold monitor_agent_run_for_pr
  simp only [hloop]
  rw [if_pos (by omega)]
  rfl

/-- Witness for C6 at the environment whose every status fetch raises. -/
theorem monitor_survives_transport_errors_witness :
    (∀ i, i < max_attempts →
       stepOf ((fun _ => (⟨Except.error (), Except.ok none⟩ : Poll)) i) = StepOut.cont 10) ∧
    monitor_agent_run_for_pr (fun _ => ⟨Except.error (), Except.ok none⟩) =
      [⟨"failed", none, some "Monitoring timeout - PR status unknown"⟩] :=
  monitor_survives_transport_errors _ (fun _ _ => Or.inl rfl)

/-- Claim C7: an unrecognized or absent status string does not make the run
fetch fail (`get_agent_run` returns the response without inspecting it);
it is classified `unknown` and the monitor never treats it as terminal:
the loop body just sleeps and re-polls. -/
theorem unrecognized_status_nonterminal (s : Option String)
    (lf : Except Unit (Option (List (List Char))))
    (h : ∀ x, s = some x → x ∉ (["pending", "running", "completed", "failed"] : List String)) :
    classifyStatus s = RunStatus.unknown ∧ stepOf ⟨Except.ok s, lf⟩ = StepOut.cont 10 := by
  cases s with
  | none => exact ⟨rfl, rfl⟩
  | some x =>
    have hx := h x rfl
    simp only [List.mem_cons, List.not_mem_nil, or_false, not_or] at hx
    obtain ⟨h1, h2, h3, h4⟩ := hx
    constructor
    · simp only [classifyStatus, if_neg h1, if_neg h2, if_neg h3, if_neg h4]
    · exact stepOf_nonterminal (some x) lf (by simp [h3]) (by simp [h4])

/-- Witness for C7 at the status string `"cancelled"`. -/
theorem unrecognized_status_nonterminal_witness :
    classifyStatus (some "cancelled") = RunStatus.unknown ∧
    stepOf ⟨Except.ok (some "cancelled"), Except.ok none⟩ = StepOut.cont 10 :=
  unrecognized_status_nonterminal (some "cancelled") (Except.ok none)
    (fun x hx => by cases Option.some.inj hx; decide)

/-! ### Claim theorems: the broadcaster -/

/-- The connection ids whose send a broadcast attempts do not depend on
which sends succeed: one observer's failed send is caught and does not
remove any other observer from the delivery. -/
theorem broadcast_fst_sendOk_irrel (active : List Nat) (pid rid : String)
    (f g : Nat → Bool) :
    ∀ subs : List (Nat × Subscription),
    (subs.filterMap (fun cs =>
        if cs.2.project_id = some pid ∧ cs.2.requirement_id = some rid then
          if cs.1 ∈ active then some (cs.1, f cs.1) else none
        else none)).map Prod.fst =
    (subs.filterMap (fun cs =>
        if cs.2.project_id = some pid ∧ cs.2.requirement_id = some rid then
          if cs.1 ∈ active then some (cs.1, g cs.1) else none
        else none)).map Prod.fst := by
  intro subs
  induction subs with
  | nil => rfl
  | cons x rest ih =>
    by_cases h1 : x.2.project_id = some pid ∧ x.2.requirement_id = some rid
    · by_cases h2 : x.1 ∈ active
      · simp only [List.filterMap_cons, if_pos h1, if_pos h2, List.map_cons, ih]
      · simp only [List.filterMap_cons, if_pos h1, if_neg h2, ih]
    · simp only [List.filterMap_cons, if_neg h1, ih]

/-- Claim C5: in a registry state where every registered subscription's
connection is live (the invariant the connect/subscribe/disconnect
lifecycle maintains), a broadcast for key `(pid, rid)` attempts delivery to
exactly the connections holding a registered subscription with that key
and to no other; the set of attempted deliveries is independent of which
sends fail (a failure is caught per observer), and each attempted send's
outcome is its own observer's. -/
theorem broadcast_pr_event_delivery (m : ConnectionManager) (pid rid : String)
    (sendOk : Nat → Bool)
    (hreg : ∀ p ∈ m.pr_subscriptions, p.1 ∈ m.active_connections) :
    (∀ cid : Nat,
       (∃ b, (cid, b) ∈ broadcast_pr_event m pid rid sendOk) ↔
       (∃ sub, (cid, sub) ∈ m.pr_subscriptions ∧
          sub.project_id = some pid ∧ sub.requirement_id = some rid)) ∧
    (broadcast_pr_event m pid rid sendOk).map Prod.fst =
      (broadcast_pr_event m pid rid (fun _ => true)).map Prod.fst ∧
    (∀ cid b, (cid, b) ∈ broadcast_pr_event m pid rid sendOk → b = sendOk cid) := by
  refine ⟨?_, ?_, ?_⟩
  · intro cid
    constructor
    · rintro ⟨b, hb⟩
      rw [broadcast_pr_event, List.mem_filterMap] at hb
      obtain ⟨⟨c, sub⟩, hmem, hf⟩ := hb
      by_cases h1 : sub.project_id = some pid ∧ sub.requirement_id = some rid
      · refine ⟨sub, ?_, h1.1, h1.2⟩
        rw [if_pos h1] at hf
        by_cases h2 : c ∈ m.active_connections
        · rw [if_pos h2] at hf
          have hc : c = cid := (Prod.mk.injEq _ _ _ _).mp (Option.some.inj hf) |>.1
          subst hc
          exact hmem
        · rw [if_neg h2] at hf
          exact Option.noConfusion hf
      · rw [if_neg h1] at hf
        exact Option.noConfusion hf
    · rintro ⟨sub, hmem, hp, hr⟩
      refine ⟨sendOk cid, ?_⟩
      rw [broadcast_pr_event, List.mem_filterMap]
      refine ⟨(cid, sub), hmem, ?_⟩
      rw [if_pos ⟨hp, hr⟩, if_pos (hreg (cid, sub) hmem)]
  · exact broadcast_fst_sendOk_irrel m.active_connections pid rid sendOk
      (fun _ => true) m.pr_subscriptions
  · intro cid b hb
    rw [broadcast_pr_event, List.mem_filterMap] at hb
    obtain ⟨⟨c, sub⟩, hmem, hf⟩ := hb
    by_cases h1 : sub.project_id = some pid ∧ sub.requirement_id = some rid
    · rw [if_pos h1] at hf
      by_cases h2 : c ∈ m.active_connections
      · rw [if_pos h2] at hf
        have := (Prod.mk.injEq _ _ _ _).mp (Option.some.inj hf)
        rw [← this.1, ← this.2]
      · rw [if_neg h2] at hf
        exact Option.noConfusion hf
    · rw [if_neg h1] at hf
      exact Option.noConfusion hf

/-- A demonstration registry: connections 101 and 102 subscribed to
`("proj", "req")`, connection 103 subscribed to a different key. -/
def demoManager : ConnectionManager :=
  ⟨[101, 102, 103],
   [(101, ⟨some "proj", some "req", some "run1"⟩),
    (102, ⟨some "proj", some "req", some "run1"⟩),
    (103, ⟨some "proj", some "other", some "run2"⟩)]⟩

/-- A send oracle under which connection 101's send fails. -/
def demoSendOk : Nat → Bool := fun cid => cid ≠ 101

/-- Witness for C5 on `demoManager` with connection 101's send failing. -/
theorem broadcast_pr_event_delivery_witness :
    (∀ cid : Nat,
       (∃ b, (cid, b) ∈ broadcast_pr_event demoManager "proj" "req" demoSendOk) ↔
       (∃ sub, (cid, sub) ∈ demoManager.pr_subscriptions ∧
          sub.project_id = some "proj" ∧ sub.requirement_id = some "req")) ∧
    (broadcast_pr_event demoManager "proj" "req" demoSendOk).map Prod.fst =
      (broadcast_pr_event demoManager "proj" "req" (fun _ => true)).map Prod.fst ∧
    (∀ cid b, (cid, b) ∈ broadcast_pr_event demoManager "proj" "req" demoSendOk →
       b = demoSendOk cid) :=
  broadcast_pr_event_delivery demoManager "proj" "req" demoSendOk (by decide)

end Codege
